import Mathlib

/-!
Shallow embedding of the pixel-engine-node task-processing core.

Sources embedded here:
* `src/unnamed/part_004` — `TaskService` (createTask, getTask, worker event
  handlers `handleWorkerSuccess` / `handleWorkerError`, `cleanupTempFile`);
* `src/src/utils/imageProcessor.ts` — `ImageProcessor`
  (`processImage`, `validateImage`, `generateRandomPrice`);
* `src/src/workers/imageProcessorWorker.js` — the worker body;
* `src/unnamed/part_003` — the `Task` and `Image` mongoose schemas
  (in particular the unique index on `Image.path`);
* `src/unnamed/part_002` — the configuration defaults.

The document store is modelled as explicit state (`Store`): the task
collection, the image-variant collection, the set of existing files, and a
fresh-id counter standing for ObjectId generation.  Wall-clock instants
(`new Date()`) are threaded as explicit `Nat` parameters.  The sharp probe,
file reads, resizing and MD5 hashing are abstract function parameters, since
they live outside the JavaScript shown in the repository.
-/

namespace PixelEngine

/-- Task lifecycle status: the `status` enum of the Task schema. -/
inductive TaskStatus
  | pending
  | completed
  | failed
deriving DecidableEq, Repr

/-- Upload transport type carried on `CreateTaskRequest.uploadType`. -/
inductive UploadType
  | json
  | multipart
deriving DecidableEq, Repr

/-- One embedded resized rendition (`ImageVariantSchema` in part_003). -/
structure ImageVariant where
  resolution : String
  path : String
  md5 : String
  createdAt : Nat
deriving DecidableEq, Repr

/-- One Task document (`TaskSchema` in part_003, with mongoose timestamps). -/
structure Task where
  id : Nat
  status : TaskStatus
  price : ℚ
  originalPath : String
  images : List ImageVariant
  error : Option String
  createdAt : Nat
  updatedAt : Nat
deriving DecidableEq, Repr

/-- One document of the separate image collection (`ImageSchema` in part_003). -/
structure ImageRecord where
  path : String
  resolution : String
  md5 : String
  originalPath : String
  taskId : Nat
deriving DecidableEq, Repr

/-- The document store plus filesystem, as explicit state. -/
structure Store where
  tasks : List Task
  images : List ImageRecord
  files : List String
  nextId : Nat
deriving DecidableEq, Repr

/-- The argument of `TaskService.createTask` (`CreateTaskRequest` in the types). -/
structure CreateTaskRequest where
  imagePath : String
  uploadType : UploadType
  originalFileName : Option String
deriving DecidableEq, Repr

/-- The synchronous result of `TaskService.createTask`. -/
structure CreateTaskResponse where
  taskId : Nat
  status : TaskStatus
  price : ℚ
deriving DecidableEq, Repr

/-- The result of `TaskService.getTask`. -/
structure GetTaskResponse where
  taskId : Nat
  status : TaskStatus
  price : ℚ
  images : List ImageVariant
  error : Option String
deriving DecidableEq, Repr

/-- The synchronous error taxonomy of the service layer. -/
inductive TaskError
  | invalidImage
  | duplicateImage
  | notFound
deriving DecidableEq, Repr

/-- An image entry of a worker success message (`result.images`).
`originalName` models the optional `img.originalName` field consulted by
`handleWorkerSuccess`; the workers in this repository never set it. -/
structure WorkerImage where
  resolution : String
  path : String
  md5 : String
  originalName : Option String
deriving DecidableEq, Repr

/-! ### Configuration defaults (part_002) -/

/-- Default `config.supportedFormats` = "jpg,jpeg,png,webp". -/
def supportedFormats : List String := ["jpg", "jpeg", "png", "webp"]

/-- Default `config.resolutions` = "1024,800". -/
def configResolutions : List Nat := [1024, 800]

/-! ### String helpers mirroring the JavaScript primitives -/

/-- Characters of the last path segment: Node `path` basename (posix). -/
def afterLastSlash (l : List Char) : List Char :=
  l.foldl (fun acc c => if c = '/' then [] else acc ++ [c]) []

/-- The extension of a basename, including the leading dot, after Node
`path.extname`: the part from the last dot, empty when there is no dot or
the only dot is the first character (`.bashrc`). -/
def extAfterLastDot (base : List Char) : List Char :=
  let rev := base.reverse
  let pre := rev.takeWhile (fun c => c ≠ '.')
  if pre.length = rev.length then []
  else if pre.length + 1 = rev.length then []
  else '.' :: pre.reverse

/-- Node `path.extname`; the special basenames "." and ".." have no
extension. -/
def extnameOf (p : String) : String :=
  let base := afterLastSlash p.data
  if base = ['.'] ∨ base = ['.', '.'] then ⟨[]⟩
  else ⟨extAfterLastDot base⟩

/-- JavaScript `toLowerCase` on the ASCII range (the only case change the
extensions here exercise). -/
def jsToLower (c : Char) : Char :=
  if 'A' ≤ c ∧ c ≤ 'Z' then Char.ofNat (c.toNat + 32) else c

/-- `path.extname(filePath).toLowerCase().slice(1)` from `validateImage`. -/
def extOf (filePath : String) : String :=
  ⟨((extnameOf filePath).data.map jsToLower).drop 1⟩

/-- Does `needle` occur at the start of `hay`? -/
def listStartsWith : List Char → List Char → Bool
  | _, [] => true
  | [], _ :: _ => false
  | a :: as, b :: bs => a = b && listStartsWith as bs

/-- Does `needle` occur anywhere inside `hay`?  Models `String.includes`. -/
def listHasSub : List Char → List Char → Bool
  | [], needle => needle.isEmpty
  | h :: t, needle => listStartsWith (h :: t) needle || listHasSub t needle

/-- JavaScript `hay.includes(needle)`. -/
def strHasSub (hay needle : String) : Bool :=
  listHasSub hay.data needle.data

/-- Node `path.join(a, b)` for the shapes used here: the segments joined by
a single separator, extra leading separators of `b` dropped. -/
def pathJoin (a b : String) : String :=
  a ++ "/" ++ ⟨b.data.dropWhile (fun c => c = '/')⟩

/-- JavaScript truthiness of an optional string (`undefined` and "" falsy). -/
def truthy (o : Option String) : Bool :=
  match o with
  | none => false
  | some s => s ≠ ""

/-- JavaScript `o || d` on an optional string. -/
def jsOrElse (o : Option String) (d : String) : String :=
  match o with
  | some s => if s = "" then d else s
  | none => d

/-! ### Reference canonicalization (part_004, createTask lines 47-59) -/

/-- Dropping a prefix by a predicate never lengthens a list. -/
lemma length_dropWhile_le {α : Type} (p : α → Bool) (l : List α) :
    (l.dropWhile p).length ≤ l.length := by
  induction l with
  | nil => simp [List.dropWhile]
  | cons a l ih =>
    by_cases h : p a
    · simp only [List.dropWhile, h]
      exact Nat.le_succ_of_le ih
    · simp [List.dropWhile, h]

/-- The regex replacement `replace(/\\+/g, "/")`: scanning left to right,
each maximal run of backslashes becomes one forward slash. -/
def collapseBs : List Char → List Char
  | [] => []
  | c :: cs =>
    if c = '\\' then '/' :: collapseBs (cs.dropWhile (fun a => a = '\\'))
    else c :: collapseBs cs
termination_by l => l.length
decreasing_by
  all_goals simp only [List.length_cons, Nat.lt_succ_iff]
  · exact length_dropWhile_le _ _
  · exact Nat.le_refl _

/-- The normalization applied to `pathForDuplicateCheck`: the replacement is
run only when the string contains a backslash (`includes("\\")`). -/
def canonicalizeRef (r : String) : String :=
  if r.data.contains '\\' then ⟨collapseBs r.data⟩ else r

/-- Which reference is used for the duplicate check: `originalFileName` for a
multipart upload when present (truthy), otherwise `imagePath`. -/
def refForDuplicateCheck (req : CreateTaskRequest) : String :=
  if req.uploadType = UploadType.multipart ∧ truthy req.originalFileName = true then
    req.originalFileName.getD ""
  else req.imagePath

/-- The canonical reference of a request: selection then normalization. -/
def canonicalRef (req : CreateTaskRequest) : String :=
  canonicalizeRef (refForDuplicateCheck req)

/-! ### ImageProcessor (src/src/utils/imageProcessor.ts) -/

/-- JavaScript `Math.round`: half rounds toward positive infinity. -/
def jsRound (x : ℚ) : ℤ := ⌊x + 1 / 2⌋

/-- `ImageProcessor.generateRandomPrice`:
`Math.round((Math.random() * 45 + 5) * 10) / 10`, with the `Math.random()`
draw `r` passed explicitly. -/
def generateRandomPrice (r : ℚ) : ℚ :=
  (jsRound ((r * 45 + 5) * 10) : ℚ) / 10

/-- `ImageProcessor.validateImage`: the lower-cased extension must be in the
supported list, and the sharp metadata probe must yield truthy width and
height; every probe failure (throw or missing metadata) is `none` and the
surrounding try/catch makes the result `false`.  The function is total. -/
def validateImage (probe : String → Option (Nat × Nat)) (filePath : String) : Bool :=
  if supportedFormats.contains (extOf filePath) = false then false
  else
    match probe filePath with
    | none => false
    | some (w, h) => decide (w ≠ 0) && decide (h ≠ 0)

/-- JavaScript whitespace class `\s` for the characters that occur in paths. -/
def jsWhitespace (c : Char) : Bool :=
  c = ' ' ∨ c = '\t' ∨ c = '\n' ∨ c = '\r' ∨ c = '\x0b' ∨ c = '\x0c'

/-- The regex replacement `replace(/\s+/g, "_")`: each maximal run of
whitespace becomes one underscore. -/
def collapseWs : List Char → List Char
  | [] => []
  | c :: cs =>
    if jsWhitespace c then '_' :: collapseWs (cs.dropWhile jsWhitespace)
    else c :: collapseWs cs
termination_by l => l.length
decreasing_by
  all_goals simp only [List.length_cons, Nat.lt_succ_iff]
  · exact length_dropWhile_le _ _
  · exact Nat.le_refl _

/-- Node `path.parse(p).name`: the basename stripped of its extension. -/
def parseNameOf (p : String) : String :=
  let base := afterLastSlash p.data
  let ext := if base = ['.'] ∨ base = ['.', '.'] then [] else extAfterLastDot base
  ⟨base.take (base.length - ext.length)⟩

/-- The cleaned source name of `processImage`:
`path.parse(inputPath).name` with `replace(/\s+/g, "_")`. -/
def cleanNameOf (p : String) : String :=
  ⟨collapseWs (parseNameOf p).data⟩

/-- One entry of the list returned by `ImageProcessor.processImage`. -/
structure ProcessedImage where
  resolution : String
  path : String
  md5 : String
deriving DecidableEq, Repr

/-- `ImageProcessor.processImage`.  Bytes are abstract (`List Nat`); `read`
models `fs.readFile` guarded by `fs.pathExists`, `meta` the sharp metadata
probe, `resize` the resize-then-jpeg-quality-90 re-encoding of the source
buffer at a target width, `md5hash` the MD5 hex digest of a buffer.  The
returned `path` is the Unix-format return path; the physical write and the
unused MD5 of the source buffer have no bearing on the returned value. -/
def processImage (read : String → Option (List Nat))
    (meta : List Nat → Option (Nat × Nat))
    (resize : List Nat → Nat → List Nat) (md5hash : List Nat → String)
    (inputPath _outputBasePath : String) (rs : List Nat) :
    Except String (List ProcessedImage) :=
  match read inputPath with
  | none => Except.error ("Image processing failed: Input file does not exist: " ++ inputPath)
  | some imageBuffer =>
    match meta imageBuffer with
    | none => Except.error "Image processing failed: Unable to read image metadata"
    | some (w, h) =>
      if w = 0 ∨ h = 0 then
        Except.error "Image processing failed: Unable to read image metadata"
      else
        let cleanName := cleanNameOf inputPath
        Except.ok (rs.map (fun resolution =>
          let resizedBuffer := resize imageBuffer resolution
          let m := md5hash resizedBuffer
          { resolution := toString resolution
            path := "/output/" ++ cleanName ++ "/" ++ toString resolution ++ "/" ++ m ++ ".jpg"
            md5 := m }))

/-! ### TaskService (part_004) -/

/-- `TaskModel.findById`. -/
def findTask (s : Store) (taskId : Nat) : Option Task :=
  s.tasks.find? (fun t => t.id == taskId)

/-- `TaskModel.findByIdAndUpdate`: apply the update to the matching document;
a missing id updates nothing and raises nothing. -/
def updateTask (s : Store) (taskId : Nat) (f : Task → Task) : Store :=
  { s with tasks := s.tasks.map (fun t => if t.id == taskId then f t else t) }

/-- `TaskService.cleanupTempFile`: read the task back; when its stored
`originalPath` contains "temp/" the transient copy under the process working
directory is removed if present.  `fsFail` injects a filesystem fault
(`fs.pathExists` / `fs.remove` throwing); the surrounding try/catch swallows
it, so the store collections are never touched on any path. -/
def cleanupTempFile (cwd : String) (fsFail : Bool) (taskId : Nat) (s : Store) : Store :=
  match findTask s taskId with
  | none => s
  | some task =>
    if strHasSub task.originalPath "temp/" = true then
      let tempFilePath := pathJoin cwd task.originalPath
      if fsFail then s
      else if s.files.contains tempFilePath then
        { s with files := s.files.filter (fun p => p ≠ tempFilePath) }
      else s
    else s

/-- The documents `handleWorkerSuccess` hands to `ImageModel.insertMany`:
one record per processed image, with `originalPath` the JavaScript-falsy
fallback `img.originalName || originalImagePath`. -/
def successDocs (taskId : Nat) (processedImages : List WorkerImage)
    (originalImagePath : String) : List ImageRecord :=
  processedImages.map (fun img =>
    { path := img.path
      resolution := img.resolution
      md5 := img.md5
      originalPath := jsOrElse img.originalName originalImagePath
      taskId := taskId })

/-- `ImageModel.insertMany` against the unique index on `Image.path`
(part_003): documents are inserted in order; the first document whose path
already exists makes the call throw (`false`), leaving later documents
uninserted. -/
def imageInsertMany : List ImageRecord → List ImageRecord → List ImageRecord × Bool
  | [], imgs => (imgs, true)
  | d :: ds, imgs =>
    if imgs.any (fun r => r.path = d.path) then (imgs, false)
    else imageInsertMany ds (imgs ++ [d])

/-- The document update of `handleWorkerSuccess`: status `completed`, the
payload images stamped with the application instant, `updatedAt` refreshed.
There is no precondition on the current status: `findByIdAndUpdate` applies
it to whatever document matches the id. -/
def successUpdate (now : Nat) (processedImages : List WorkerImage) (t : Task) : Task :=
  { t with
    status := TaskStatus.completed
    images := processedImages.map (fun img =>
      { resolution := img.resolution
        path := img.path
        md5 := img.md5
        createdAt := now })
    updatedAt := now }

/-- The document update of `handleWorkerError`: status `failed`, the message
as `error`, `updatedAt` refreshed.  The `images` field is NOT cleared.
There is no precondition on the current status. -/
def failureUpdate (now : Nat) (errorMessage : String) (t : Task) : Task :=
  { t with
    status := TaskStatus.failed
    error := some errorMessage
    updatedAt := now }

/-- `TaskService.handleWorkerSuccess`: unconditionally update the task, then
insert the records into the image collection; cleanup runs only when the
insert did not throw against the unique path index (the rethrown error is
swallowed by the message handler of `processImageWithWorker`). -/
def handleWorkerSuccess (cwd : String) (fsFail : Bool) (now taskId : Nat)
    (processedImages : List WorkerImage) (originalImagePath : String)
    (s : Store) : Store :=
  let s1 := updateTask s taskId (successUpdate now processedImages)
  let res := imageInsertMany (successDocs taskId processedImages originalImagePath) s.images
  let s2 := { s1 with images := res.1 }
  if res.2 then cleanupTempFile cwd fsFail taskId s2 else s2

/-- `TaskService.handleWorkerError`: unconditionally update the task, then
run cleanup; every exception is swallowed. -/
def handleWorkerError (cwd : String) (fsFail : Bool) (now taskId : Nat)
    (errorMessage : String) (s : Store) : Store :=
  cleanupTempFile cwd fsFail taskId (updateTask s taskId (failureUpdate now errorMessage))

/-- `TaskService.createTask`: validate, canonicalize and check the duplicate
guard against the image collection, draw the price, persist the pending task
(`r` is the `Math.random()` draw, `now` the creation instant).  The worker
dispatch is fire-and-forget and out of the synchronous state change; its
terminal events are modelled by `applyWorkerEvent`. -/
def createTask (probe : String → Option (Nat × Nat)) (r : ℚ) (now : Nat)
    (req : CreateTaskRequest) (s : Store) :
    Except TaskError CreateTaskResponse × Store :=
  if validateImage probe req.imagePath = false then
    (Except.error TaskError.invalidImage, s)
  else
    let pathForDuplicateCheck := canonicalRef req
    if s.images.any (fun img => img.originalPath = pathForDuplicateCheck) then
      (Except.error TaskError.duplicateImage, s)
    else
      let price := generateRandomPrice r
      let task : Task :=
        { id := s.nextId
          status := TaskStatus.pending
          price := price
          originalPath := pathForDuplicateCheck
          images := []
          error := none
          createdAt := now
          updatedAt := now }
      (Except.ok { taskId := task.id, status := task.status, price := task.price },
       { s with tasks := s.tasks ++ [task], nextId := s.nextId + 1 })

/-- `TaskService.getTask`: a pure read. -/
def getTask (s : Store) (taskId : Nat) : Except TaskError GetTaskResponse :=
  match findTask s taskId with
  | none => Except.error TaskError.notFound
  | some task =>
    Except.ok
      { taskId := task.id
        status := task.status
        price := task.price
        images := task.images
        error := task.error }

/-! ### Worker dispatch protocol (part_004 `processImageWithWorker` and
src/src/workers/imageProcessorWorker.js) -/

/-- A terminal message posted by a worker. -/
inductive WorkerMsg
  | completed (images : List WorkerImage)
  | failed (error : String)
deriving DecidableEq, Repr

/-- What the coordinator can observe from a dispatched worker: a posted
message, the `error` event of the thread, or the `exit` event with a code. -/
inductive WorkerEvent
  | message (msg : WorkerMsg)
  | errorEvent (errMsg : String)
  | exitEvent (code : Nat)
deriving DecidableEq, Repr

/-- The event handlers installed by `processImageWithWorker`: a `completed`
message runs `handleWorkerSuccess`, a `failed` message and the thread `error`
event run `handleWorkerError`, and the `exit` event only logs — it changes
no state, whatever the exit code. -/
def applyWorkerEvent (cwd : String) (fsFail : Bool) (now taskId : Nat)
    (originalPath : String) (ev : WorkerEvent) (s : Store) : Store :=
  match ev with
  | WorkerEvent.message (WorkerMsg.completed imgs) =>
      handleWorkerSuccess cwd fsFail now taskId imgs originalPath s
  | WorkerEvent.message (WorkerMsg.failed e) =>
      handleWorkerError cwd fsFail now taskId e s
  | WorkerEvent.errorEvent e => handleWorkerError cwd fsFail now taskId e s
  | WorkerEvent.exitEvent _ => s

/-- The worker body `processImage` of imageProcessorWorker.js: it posts
exactly one terminal message — `failed` when required data is missing, when
validation rejects the input, or when the engine throws; `completed` with
the engine results otherwise. -/
def workerRun (probe : String → Option (Nat × Nat))
    (read : String → Option (List Nat)) (meta : List Nat → Option (Nat × Nat))
    (resize : List Nat → Nat → List Nat) (md5hash : List Nat → String)
    (taskId imagePath outputDir : String) (rs : List Nat) : WorkerMsg :=
  if taskId = "" ∨ imagePath = "" then
    WorkerMsg.failed "Missing required data: taskId and imagePath"
  else if validateImage probe imagePath = false then
    WorkerMsg.failed "Invalid image file or format not supported"
  else
    match processImage read meta resize md5hash imagePath outputDir rs with
    | Except.ok images =>
        WorkerMsg.completed (images.map (fun i =>
          { resolution := i.resolution, path := i.path, md5 := i.md5, originalName := none }))
    | Except.error e => WorkerMsg.failed e

/-- The worker-global `uncaughtException` / `unhandledRejection` handlers:
an uncaught fault inside the unit is turned into a `failed` message. -/
def workerFaultMsg (e : String) : WorkerMsg :=
  WorkerMsg.failed ("Uncaught exception: " ++ e)

/-! ### The spec invariant (section 3 of the spec) -/

/-- The invariant claimed for a single task: the variants list is full
exactly on `completed`, and empty on `pending` and `failed`. -/
def taskInv (resCount : Nat) (t : Task) : Prop :=
  (t.images.length = resCount ↔ t.status = TaskStatus.completed) ∧
  ((t.status = TaskStatus.pending ∨ t.status = TaskStatus.failed) → t.images = [])

/-- The invariant over a whole store. -/
def storeInv (resCount : Nat) (s : Store) : Prop :=
  ∀ t ∈ s.tasks, taskInv resCount t

instance (resCount : Nat) (t : Task) : Decidable (taskInv resCount t) := by
  unfold taskInv
  infer_instance

instance (resCount : Nat) (s : Store) : Decidable (storeInv resCount s) := by
  unfold storeInv taskInv
  infer_instance

/-! ### Concrete fixtures for witnesses and counterexamples -/

/-- Fixture: the empty store. -/
def store0 : Store := { tasks := [], images := [], files := [], nextId := 0 }

/-- Fixture: a probe accepting every path with 1×1 dimensions. -/
def probe1 : String → Option (Nat × Nat) := fun _ => some (1, 1)

/-- Fixture: a multipart request carrying a Windows-style original name. -/
def reqMulti : CreateTaskRequest :=
  { imagePath := "/input/a.jpg"
    uploadType := UploadType.multipart
    originalFileName := some "C:\\input\\a.jpg" }

/-- Fixture: a plain JSON-path request. -/
def reqJson : CreateTaskRequest :=
  { imagePath := "/input/sample1.jpg"
    uploadType := UploadType.json
    originalFileName := none }

/-- Fixture: a pending task for the reference of `reqJson`. -/
def pendingTask0 : Task :=
  { id := 0
    status := TaskStatus.pending
    price := 10
    originalPath := "/input/sample1.jpg"
    images := []
    error := none
    createdAt := 1
    updatedAt := 1 }

/-- Fixture: a two-variant worker success payload. -/
def payload2 : List WorkerImage :=
  [{ resolution := "1024"
     path := "/output/sample1/1024/aaa.jpg"
     md5 := "aaa"
     originalName := none },
   { resolution := "800"
     path := "/output/sample1/800/bbb.jpg"
     md5 := "bbb"
     originalName := none }]

/-- Fixture: a task whose reference marks a transient multipart copy. -/
def tempTask : Task :=
  { id := 0
    status := TaskStatus.pending
    price := 10
    originalPath := "uploads/temp/x.jpg"
    images := []
    error := none
    createdAt := 1
    updatedAt := 1 }

/-- Fixture: a store holding `tempTask` and its transient file on disk. -/
def storeTemp : Store :=
  { tasks := [tempTask]
    images := []
    files := ["/app/uploads/temp/x.jpg"]
    nextId := 1 }

/-- Fixture: a one-variant worker payload whose path is already taken. -/
def payloadDup : List WorkerImage :=
  [{ resolution := "1024"
     path := "/output/x/1024/aaa.jpg"
     md5 := "aaa"
     originalName := none }]

/-- Fixture: an image record already occupying the path of `payloadDup`. -/
def dupRecord : ImageRecord :=
  { path := "/output/x/1024/aaa.jpg"
    resolution := "1024"
    md5 := "aaa"
    originalPath := "/input/other.jpg"
    taskId := 7 }

/-- Fixture: `storeTemp` with the colliding record already recorded. -/
def storeTempDup : Store :=
  { tasks := [tempTask]
    images := [dupRecord]
    files := ["/app/uploads/temp/x.jpg"]
    nextId := 1 }

/-- Fixture: a completed task holding one variant per configured
resolution. -/
def completedTask2 : Task :=
  { id := 0
    status := TaskStatus.completed
    price := 10
    originalPath := "/input/sample1.jpg"
    images := [{ resolution := "1024"
                 path := "/output/sample1/1024/aaa.jpg"
                 md5 := "aaa"
                 createdAt := 1 },
               { resolution := "800"
                 path := "/output/sample1/800/bbb.jpg"
                 md5 := "bbb"
                 createdAt := 1 }]
    error := none
    createdAt := 1
    updatedAt := 1 }

/-- Fixture: a one-byte readable source file. -/
def readW : String → Option (List Nat) :=
  fun p => if p = "/input/sample 1.jpg" then some [1] else none

/-- Fixture: a probe reporting 2×2 dimensions for any buffer. -/
def metaW : List Nat → Option (Nat × Nat) := fun _ => some (2, 2)

/-- Fixture: a resize stub prepending the target width. -/
def resizeW : List Nat → Nat → List Nat := fun b n => n :: b

/-- Fixture: a hash stub, distinct on distinct buffer lengths. -/
def md5W : List Nat → String := fun b => toString b.length

/-! ### Shared lemmas -/

/-- Decidable equality of service results, for concrete evaluations. -/
instance exceptDecEq {e a : Type} [DecidableEq e] [DecidableEq a] :
    DecidableEq (Except e a) := fun x y =>
  match x, y with
  | Except.error u, Except.error v =>
    if h : u = v then isTrue (by rw [h]) else isFalse (fun hc => h (by simpa using hc))
  | Except.error _, Except.ok _ => isFalse (fun hc => Except.noConfusion hc)
  | Except.ok _, Except.error _ => isFalse (fun hc => Except.noConfusion hc)
  | Except.ok u, Except.ok v =>
    if h : u = v then isTrue (by rw [h]) else isFalse (fun hc => h (by simpa using hc))

/-- Cleanup only touches the filesystem: the task collection is unchanged. -/
lemma cleanupTempFile_tasks (cwd : String) (fsFail : Bool) (taskId : Nat) (s : Store) :
    (cleanupTempFile cwd fsFail taskId s).tasks = s.tasks := by
  unfold cleanupTempFile
  cases findTask s taskId <;> simp only
  split <;> [skip; rfl]
  split <;> [rfl; skip]
  split <;> rfl

/-- Cleanup only touches the filesystem: the image collection is unchanged. -/
lemma cleanupTempFile_images (cwd : String) (fsFail : Bool) (taskId : Nat) (s : Store) :
    (cleanupTempFile cwd fsFail taskId s).images = s.images := by
  unfold cleanupTempFile
  cases findTask s taskId <;> simp only
  split <;> [skip; rfl]
  split <;> [rfl; skip]
  split <;> rfl

/-- Finding by id through an id-preserving pointwise update. -/
lemma find_update (l : List Task) (tid : Nat) (f : Task → Task)
    (hf : ∀ t, (f t).id = t.id) :
    (l.map (fun t => if t.id == tid then f t else t)).find? (fun t => t.id == tid)
      = (l.find? (fun t => t.id == tid)).map f := by
  induction l with
  | nil => simp
  | cons hd tl ih =>
    by_cases h : hd.id = tid
    · simp [List.find?, h, hf]
    · have hb : (hd.id == tid) = false := by simp [h]
      simp only [List.map_cons, List.find?, hb, if_neg]
      rw [if_neg (by simp [h])]
      simpa [hb] using ih

/-- `findTask` after `updateTask` at the same id. -/
lemma findTask_updateTask (s : Store) (tid : Nat) (f : Task → Task)
    (hf : ∀ t, (f t).id = t.id) :
    findTask (updateTask s tid f) tid = (findTask s tid).map f := by
  unfold findTask updateTask
  exact find_update s.tasks tid f hf

/-- A succeeding ordered `insertMany` appends all its documents. -/
lemma imageInsertMany_ok_fst (docs imgs : List ImageRecord)
    (h : (imageInsertMany docs imgs).2 = true) :
    (imageInsertMany docs imgs).1 = imgs ++ docs := by
  induction docs generalizing imgs with
  | nil => simp [imageInsertMany]
  | cons d ds ih =>
    simp only [imageInsertMany] at h ⊢
    by_cases hd : imgs.any (fun r => r.path = d.path) = true
    · rw [if_pos hd] at h
      simp at h
    · rw [if_neg hd] at h ⊢
      rw [ih _ h, List.append_assoc]
      rfl

/-- An ordered `insertMany` whose first document collides throws at once. -/
lemma imageInsertMany_head_dup (d : ImageRecord) (ds imgs : List ImageRecord)
    (h : imgs.any (fun r => r.path = d.path) = true) :
    imageInsertMany (d :: ds) imgs = (imgs, false) := by
  simp [imageInsertMany, h]

/-- The task-collection effect of `handleWorkerSuccess` is exactly the
unconditional pointwise update. -/
lemma handleWorkerSuccess_tasks (cwd : String) (fsFail : Bool) (now taskId : Nat)
    (P : List WorkerImage) (orig : String) (s : Store) :
    (handleWorkerSuccess cwd fsFail now taskId P orig s).tasks
      = s.tasks.map (fun t =>
          if t.id == taskId then successUpdate now P t else t) := by
  simp only [handleWorkerSuccess]
  split
  · rw [cleanupTempFile_tasks]
    rfl
  · rfl

/-- The image-collection effect of `handleWorkerSuccess` when the ordered
insert succeeds: the documents are appended. -/
lemma handleWorkerSuccess_images_ok (cwd : String) (fsFail : Bool) (now taskId : Nat)
    (P : List WorkerImage) (orig : String) (s : Store)
    (h : (imageInsertMany (successDocs taskId P orig) s.images).2 = true) :
    (handleWorkerSuccess cwd fsFail now taskId P orig s).images
      = s.images ++ successDocs taskId P orig := by
  simp only [handleWorkerSuccess]
  rw [if_pos h, cleanupTempFile_images]
  exact imageInsertMany_ok_fst _ _ h

/-- The task-collection effect of `handleWorkerError` is exactly the
unconditional pointwise update. -/
lemma handleWorkerError_tasks (cwd : String) (fsFail : Bool) (now taskId : Nat)
    (e : String) (s : Store) :
    (handleWorkerError cwd fsFail now taskId e s).tasks
      = s.tasks.map (fun t =>
          if t.id == taskId then failureUpdate now e t else t) := by
  unfold handleWorkerError
  rw [cleanupTempFile_tasks]
  rfl

/-- `handleWorkerError` never inserts image records. -/
lemma handleWorkerError_images (cwd : String) (fsFail : Bool) (now taskId : Nat)
    (e : String) (s : Store) :
    (handleWorkerError cwd fsFail now taskId e s).images = s.images := by
  unfold handleWorkerError
  rw [cleanupTempFile_images]
  rfl

/-! ### Claim theorems -/

/-- C5: when `createTask` fails synchronously, the error is raised before
any persistence step — the store comes back unchanged, so no Task record is
created — and the only synchronous failures are the validation gate
(`InvalidImage`) and the duplicate gate (`DuplicateImage`). -/
theorem createTask_sync_failure_no_persist
    (probe : String → Option (Nat × Nat)) (r : ℚ) (now : Nat)
    (req : CreateTaskRequest) (s : Store) (e : TaskError)
    (h : (createTask probe r now req s).1 = Except.error e) :
    (createTask probe r now req s).2 = s ∧
    (e = TaskError.invalidImage ∨ e = TaskError.duplicateImage) := by
  simp only [createTask] at h ⊢
  by_cases h1 : validateImage probe req.imagePath = false
  · rw [if_pos h1] at h ⊢
    simp only [Except.error.injEq] at h
    exact ⟨rfl, Or.inl h.symm⟩
  · rw [if_neg h1] at h ⊢
    by_cases h2 : (s.images.any (fun img => img.originalPath = canonicalRef req)) = true
    · rw [if_pos h2] at h ⊢
      simp only [Except.error.injEq] at h
      exact ⟨rfl, Or.inr h.symm⟩
    · rw [if_neg h2] at h
      simp at h

/-- Witness for `createTask_sync_failure_no_persist` at a rejecting probe. -/
theorem createTask_sync_failure_no_persist_witness :
    (createTask (fun _ => none) 0 0
        { imagePath := "/input/a.jpg", uploadType := UploadType.json, originalFileName := none }
        { tasks := [], images := [], files := [], nextId := 0 }).1
      = Except.error TaskError.invalidImage ∧
    ((createTask (fun _ => none) 0 0
        { imagePath := "/input/a.jpg", uploadType := UploadType.json, originalFileName := none }
        { tasks := [], images := [], files := [], nextId := 0 }).2
      = { tasks := [], images := [], files := [], nextId := 0 } ∧
     (TaskError.invalidImage = TaskError.invalidImage ∨
      TaskError.invalidImage = TaskError.duplicateImage)) :=
  ⟨by decide,
   createTask_sync_failure_no_persist (fun _ => none) 0 0
     { imagePath := "/input/a.jpg", uploadType := UploadType.json, originalFileName := none }
     { tasks := [], images := [], files := [], nextId := 0 }
     TaskError.invalidImage (by decide)⟩

/-- C9: `validateImage` is total by construction (it returns a `Bool`, every
probe failure being caught), and whenever the lower-cased extension of the
path is not in the configured supported-formats list it returns `false`
regardless of the probe — even a probe reporting valid dimensions — so
`createTask` on such a path fails with `InvalidImage` and leaves the store
unchanged. -/
theorem validateImage_ext_gate
    (probe : String → Option (Nat × Nat)) (r : ℚ) (now : Nat)
    (req : CreateTaskRequest) (s : Store)
    (h : supportedFormats.contains (extOf req.imagePath) = false) :
    validateImage probe req.imagePath = false ∧
    createTask probe r now req s = (Except.error TaskError.invalidImage, s) := by
  have hv : validateImage probe req.imagePath = false := by
    unfold validateImage
    rw [if_pos h]
  refine ⟨hv, ?_⟩
  simp only [createTask]
  rw [if_pos hv]

/-- Helper for C10: the collapsed string never contains a backslash. -/
lemma collapseBs_no_bs (l : List Char) : '\\' ∉ collapseBs l := by
  induction l using collapseBs.induct with
  | case1 => simp [collapseBs]
  | case2 cs ih =>
    simp only [collapseBs, if_pos rfl]
    intro hmem
    rcases List.mem_cons.mp hmem with h1 | h1
    · exact absurd h1 (by decide)
    · exact ih h1
  | case3 c cs h ih =>
    simp only [collapseBs, if_neg h]
    intro hmem
    rcases List.mem_cons.mp hmem with h1 | h1
    · exact h h1.symm
    · exact ih h1

/-- Helper for C10: collapsing is the identity on backslash-free strings. -/
lemma collapseBs_id_of_no_bs (l : List Char) (h : '\\' ∉ l) : collapseBs l = l := by
  induction l with
  | nil => simp [collapseBs]
  | cons c cs ih =>
    have hc : ¬ c = '\\' := fun hc => h (by simp [hc])
    simp only [collapseBs, if_neg hc]
    rw [ih (fun hm => h (List.mem_cons_of_mem _ hm))]

/-- Helper for C10: `contains` agrees with list membership. -/
lemma contains_eq_false_of_not_mem (l : List Char) (h : '\\' ∉ l) :
    l.contains '\\' = false := by
  simp only [List.contains, List.elem_eq_mem]
  simpa using h

/-- Helper for C10: the backslash guard is semantically redundant — the
normalization always equals the raw collapse. -/
lemma canonicalizeRef_eq_collapse (r : String) :
    canonicalizeRef r = ⟨collapseBs r.data⟩ := by
  unfold canonicalizeRef
  by_cases h : r.data.contains '\\' = true
  · rw [if_pos h]
  · rw [if_neg h]
    have hm : '\\' ∉ r.data := by
      intro hmem
      exact h (by simpa [List.contains, List.elem_eq_mem] using hmem)
    conv_lhs => rw [show r = (⟨r.data⟩ : String) from rfl]
    rw [collapseBs_id_of_no_bs _ hm]

/-- Helper for C10: dropping leading backslashes ignores a replicated
backslash prefix. -/
lemma dropWhile_replicate_bs (k : Nat) (l : List Char) :
    (List.replicate k '\\' ++ l).dropWhile (fun a => a = '\\')
      = l.dropWhile (fun a => a = '\\') := by
  induction k with
  | zero => simp
  | succ n ih =>
    rw [List.replicate_succ, List.cons_append, List.dropWhile_cons]
    simp [ih]

/-- Helper for C10: nothing is dropped from a list not headed by a
backslash. -/
lemma dropWhile_of_head_ne_bs (l : List Char) (h : l.head? ≠ some '\\') :
    l.dropWhile (fun a => a = '\\') = l := by
  cases l with
  | nil => rfl
  | cons c cs =>
    have hc : ¬ c = '\\' := fun hc => h (by simp [hc])
    simp [List.dropWhile_cons, hc]

/-- Helper for C10: a maximal run of `k ≥ 1` backslashes collapses to one
forward slash. -/
lemma collapseBs_run (k : Nat) (hk : 0 < k) (l : List Char)
    (h : l.head? ≠ some '\\') :
    collapseBs (List.replicate k '\\' ++ l) = '/' :: collapseBs l := by
  cases k with
  | zero => exact absurd hk (by decide)
  | succ n =>
    rw [List.replicate_succ, List.cons_append]
    simp only [collapseBs, if_pos rfl, if_true]
    rw [dropWhile_replicate_bs, dropWhile_of_head_ne_bs _ h]

/-- Witness for `validateImage_ext_gate`: a `.txt` path whose bytes would
probe as a valid 100×100 image is still rejected. -/
theorem validateImage_ext_gate_witness :
    supportedFormats.contains (extOf "/input/doc.txt") = false ∧
    (validateImage (fun _ => some (100, 100)) "/input/doc.txt" = false ∧
     createTask (fun _ => some (100, 100)) 0 3
        { imagePath := "/input/doc.txt", uploadType := UploadType.json, originalFileName := none }
        { tasks := [], images := [], files := [], nextId := 0 }
      = (Except.error TaskError.invalidImage,
         { tasks := [], images := [], files := [], nextId := 0 })) :=
  ⟨by decide,
   validateImage_ext_gate (fun _ => some (100, 100)) 0 3
     { imagePath := "/input/doc.txt", uploadType := UploadType.json, originalFileName := none }
     { tasks := [], images := [], files := [], nextId := 0 } (by decide)⟩

/-- C10: reference canonicalization replaces each maximal run of backslashes
with a single forward slash — it is the identity on backslash-free strings
and collapses a leading run of `k ≥ 1` backslashes to exactly one slash
before continuing — it is idempotent, and `createTask` uses the very same
canonical string both as the duplicate-lookup key and as the `originalPath`
persisted on the new task. -/
theorem canonicalizeRef_run_collapse_idem
    (r rest : String) (k : Nat)
    (probe : String → Option (Nat × Nat)) (r0 : ℚ) (now : Nat)
    (req : CreateTaskRequest) (s : Store)
    (hk : 0 < k) (hrest : rest.data.head? ≠ some '\\')
    (hval : validateImage probe req.imagePath = true) :
    canonicalizeRef (canonicalizeRef r) = canonicalizeRef r ∧
    ('\\' ∉ r.data → canonicalizeRef r = r) ∧
    canonicalizeRef ⟨List.replicate k '\\' ++ rest.data⟩ = "/" ++ canonicalizeRef rest ∧
    ((createTask probe r0 now req s).1 = Except.error TaskError.duplicateImage ↔
      s.images.any (fun img => img.originalPath = canonicalRef req) = true) ∧
    (s.images.any (fun img => img.originalPath = canonicalRef req) = false →
      (createTask probe r0 now req s).2.tasks
        = s.tasks ++ [{ id := s.nextId
                        status := TaskStatus.pending
                        price := generateRandomPrice r0
                        originalPath := canonicalRef req
                        images := []
                        error := none
                        createdAt := now
                        updatedAt := now }]) := by
  have hnotfalse : ¬ validateImage probe req.imagePath = false := by
    rw [hval]
    decide
  refine ⟨?_, ?_, ?_, ?_, ?_⟩
  · rw [canonicalizeRef_eq_collapse r, canonicalizeRef_eq_collapse ⟨collapseBs r.data⟩]
    exact congrArg String.mk (collapseBs_id_of_no_bs _ (collapseBs_no_bs _))
  · intro h
    rw [canonicalizeRef_eq_collapse r, collapseBs_id_of_no_bs _ h]
  · rw [canonicalizeRef_eq_collapse ⟨List.replicate k '\\' ++ rest.data⟩,
      canonicalizeRef_eq_collapse rest]
    rw [show (⟨List.replicate k '\\' ++ rest.data⟩ : String).data
        = List.replicate k '\\' ++ rest.data from rfl]
    rw [collapseBs_run k hk rest.data hrest]
    rfl
  · simp only [createTask]
    rw [if_neg hnotfalse]
    by_cases ha : (s.images.any (fun img => img.originalPath = canonicalRef req)) = true
    · rw [if_pos ha]
      simp [ha]
    · rw [if_neg ha]
      simp only [Bool.not_eq_true] at ha
      simp [ha]
  · intro ha
    simp only [createTask]
    rw [if_neg hnotfalse, if_neg (by rw [ha]; decide)]

/-- Witness for `canonicalizeRef_run_collapse_idem`: a Windows-style
multipart reference against an empty image collection. -/
theorem canonicalizeRef_run_collapse_idem_witness :
    0 < 2 ∧ "x".data.head? ≠ some '\\' ∧
    validateImage probe1 reqMulti.imagePath = true ∧
    (canonicalizeRef (canonicalizeRef "a\\\\b") = canonicalizeRef "a\\\\b" ∧
     ('\\' ∉ "a\\\\b".data → canonicalizeRef "a\\\\b" = "a\\\\b") ∧
     canonicalizeRef ⟨List.replicate 2 '\\' ++ "x".data⟩ = "/" ++ canonicalizeRef "x" ∧
     ((createTask probe1 0 4 reqMulti store0).1 = Except.error TaskError.duplicateImage ↔
       store0.images.any (fun img => img.originalPath = canonicalRef reqMulti) = true) ∧
     (store0.images.any (fun img => img.originalPath = canonicalRef reqMulti) = false →
       (createTask probe1 0 4 reqMulti store0).2.tasks
        = store0.tasks ++ [{ id := store0.nextId
                             status := TaskStatus.pending
                             price := generateRandomPrice 0
                             originalPath := canonicalRef reqMulti
                             images := []
                             error := none
                             createdAt := 4
                             updatedAt := 4 }])) :=
  ⟨by decide, by decide, by decide,
   canonicalizeRef_run_collapse_idem "a\\\\b" "x" 2 probe1 0 4 reqMulti store0
     (by decide) (by decide) (by decide)⟩

/-- C7: for every successfully processed source and each configured
resolution, the produced variant's path is exactly
`/output/<sourceName>/<resolution>/<contentHash>.jpg`, where `<sourceName>`
is the cleaned source base name and `<contentHash>` is the hash of the final
re-encoded output bytes of that variant (`resize buf res`), not of the
source bytes. -/
theorem processImage_variant_paths
    (read : String → Option (List Nat)) (meta : List Nat → Option (Nat × Nat))
    (resize : List Nat → Nat → List Nat) (md5hash : List Nat → String)
    (inputPath out : String) (rs : List Nat) (buf : List Nat) (w h : Nat)
    (hread : read inputPath = some buf) (hmeta : meta buf = some (w, h))
    (hw : w ≠ 0) (hh : h ≠ 0) :
    processImage read meta resize md5hash inputPath out rs
      = Except.ok (rs.map (fun res =>
          { resolution := toString res
            path := "/output/" ++ cleanNameOf inputPath ++ "/" ++ toString res
              ++ "/" ++ md5hash (resize buf res) ++ ".jpg"
            md5 := md5hash (resize buf res) })) := by
  simp only [processImage, hread, hmeta]
  rw [if_neg (fun hc => hc.elim hw hh)]

/-- Witness for `processImage_variant_paths` on a two-resolution run over a
source name containing a space. -/
theorem processImage_variant_paths_witness :
    readW "/input/sample 1.jpg" = some [1] ∧ metaW [1] = some (2, 2) ∧
    (2 ≠ 0 ∧ 2 ≠ 0) ∧
    processImage readW metaW resizeW md5W "/input/sample 1.jpg" "output" [1024, 800]
      = Except.ok ([1024, 800].map (fun res =>
          { resolution := toString res
            path := "/output/" ++ cleanNameOf "/input/sample 1.jpg" ++ "/" ++ toString res
              ++ "/" ++ md5W (resizeW [1] res) ++ ".jpg"
            md5 := md5W (resizeW [1] res) })) :=
  ⟨by decide, by decide, ⟨by decide, by decide⟩,
   processImage_variant_paths readW metaW resizeW md5W "/input/sample 1.jpg" "output"
     [1024, 800] [1] 2 2 (by decide) (by decide) (by decide) (by decide)⟩

/-- Helper for C6: a pointwise task update that preserves id and price
preserves the (id, price) view of the whole collection. -/
lemma priceView_update (l : List Task) (tid : Nat) (f : Task → Task)
    (hf : ∀ t, (f t).id = t.id ∧ (f t).price = t.price) :
    (l.map (fun t => if t.id == tid then f t else t)).map (fun t => (t.id, t.price))
      = l.map (fun t => (t.id, t.price)) := by
  rw [List.map_map]
  congr 1
  funext t
  by_cases h : (t.id == tid) = true
  · simp [Function.comp, h, (hf t).1, (hf t).2]
  · simp [Function.comp, h]

/-- C6: the assigned price is the uniform draw `r ∈ [0, 1)` mapped through
`Math.round((r * 45 + 5) * 10) / 10`, so it always lies within `[5, 50]`
with exactly one decimal place; `createTask` fixes it on the response at
creation, no worker event ever changes any stored task's id or price, and
`getTask` reads the stored price back unchanged. -/
theorem price_range_one_decimal_immutable
    (r : ℚ) (h0 : 0 ≤ r) (h1 : r < 1) :
    (5 ≤ generateRandomPrice r ∧ generateRandomPrice r ≤ 50 ∧
      ∃ n : ℤ, generateRandomPrice r * 10 = n) ∧
    (∀ probe now req s resp, (createTask probe r now req s).1 = Except.ok resp →
      resp.price = generateRandomPrice r) ∧
    (∀ cwd fsFail now taskId orig ev s,
      (applyWorkerEvent cwd fsFail now taskId orig ev s).tasks.map (fun t => (t.id, t.price))
        = s.tasks.map (fun t => (t.id, t.price))) ∧
    (∀ s taskId resp, getTask s taskId = Except.ok resp →
      (findTask s taskId).map Task.price = some resp.price) := by
  have hfl0 : (50 : ℤ) ≤ jsRound ((r * 45 + 5) * 10) := by
    unfold jsRound
    refine Int.le_floor.mpr ?_
    push_cast
    linarith
  have hfl1 : jsRound ((r * 45 + 5) * 10) ≤ 500 := by
    unfold jsRound
    have h2 : ⌊(r * 45 + 5) * 10 + 1 / 2⌋ < (501 : ℤ) := by
      refine Int.floor_lt.mpr ?_
      push_cast
      linarith
    omega
  refine ⟨⟨?_, ?_, ⟨jsRound ((r * 45 + 5) * 10), ?_⟩⟩, ?_, ?_, ?_⟩
  · unfold generateRandomPrice
    rw [le_div_iff₀ (by norm_num : (0 : ℚ) < 10)]
    exact_mod_cast by exact_mod_cast (by norm_num : (5 : ℚ) * 10 = 50) ▸ (by exact_mod_cast hfl0 : (50 : ℚ) ≤ (jsRound ((r * 45 + 5) * 10) : ℚ))
  · unfold generateRandomPrice
    rw [div_le_iff₀ (by norm_num : (0 : ℚ) < 10)]
    calc (jsRound ((r * 45 + 5) * 10) : ℚ) ≤ 500 := by exact_mod_cast hfl1
      _ = 50 * 10 := by norm_num
  · unfold generateRandomPrice
    field_simp
  · intro probe now req s resp hok
    simp only [createTask] at hok
    by_cases hv : validateImage probe req.imagePath = false
    · rw [if_pos hv] at hok
      exact absurd hok (by simp)
    · rw [if_neg hv] at hok
      by_cases ha : (s.images.any (fun img => img.originalPath = canonicalRef req)) = true
      · rw [if_pos ha] at hok
        exact absurd hok (by simp)
      · rw [if_neg ha] at hok
        simp only [Except.ok.injEq] at hok
        rw [← hok]
  · intro cwd fsFail now taskId orig ev s
    cases ev with
    | message msg =>
      cases msg with
      | completed imgs =>
        rw [show applyWorkerEvent cwd fsFail now taskId orig
              (WorkerEvent.message (WorkerMsg.completed imgs)) s
            = handleWorkerSuccess cwd fsFail now taskId imgs orig s from rfl]
        rw [handleWorkerSuccess_tasks]
        exact priceView_update _ _ _ (fun t => ⟨rfl, rfl⟩)
      | failed e =>
        rw [show applyWorkerEvent cwd fsFail now taskId orig
              (WorkerEvent.message (WorkerMsg.failed e)) s
            = handleWorkerError cwd fsFail now taskId e s from rfl]
        rw [handleWorkerError_tasks]
        exact priceView_update _ _ _ (fun t => ⟨rfl, rfl⟩)
    | errorEvent e =>
      rw [show applyWorkerEvent cwd fsFail now taskId orig (WorkerEvent.errorEvent e) s
          = handleWorkerError cwd fsFail now taskId e s from rfl]
      rw [handleWorkerError_tasks]
      exact priceView_update _ _ _ (fun t => ⟨rfl, rfl⟩)
    | exitEvent code => rfl
  · intro s taskId resp hok
    unfold getTask at hok
    cases hfind : findTask s taskId with
    | none =>
      rw [hfind] at hok
      exact absurd hok (by simp)
    | some t =>
      rw [hfind] at hok
      simp only [Except.ok.injEq] at hok
      rw [← hok]
      rfl

/-- Witness for `price_range_one_decimal_immutable` at the draw 1/2 and a
concrete completed-message event. -/
theorem price_range_one_decimal_immutable_witness :
    (0 : ℚ) ≤ 1 / 2 ∧ (1 / 2 : ℚ) < 1 ∧
    (5 ≤ generateRandomPrice (1 / 2) ∧ generateRandomPrice (1 / 2) ≤ 50 ∧
      ∃ n : ℤ, generateRandomPrice (1 / 2) * 10 = n) ∧
    (applyWorkerEvent "/app" false 2 0 "/input/sample1.jpg"
        (WorkerEvent.message (WorkerMsg.completed payload2))
        { store0 with tasks := [pendingTask0] }).tasks.map (fun t => (t.id, t.price))
      = ({ store0 with tasks := [pendingTask0] } : Store).tasks.map (fun t => (t.id, t.price)) :=
  ⟨by norm_num, by norm_num,
   (price_range_one_decimal_immutable (1 / 2) (by norm_num) (by norm_num)).1,
   (price_range_one_decimal_immutable (1 / 2) (by norm_num) (by norm_num)).2.2.1
     "/app" false 2 0 "/input/sample1.jpg"
     (WorkerEvent.message (WorkerMsg.completed payload2))
     { store0 with tasks := [pendingTask0] }⟩

/-- Helper for C8: when the stored task's reference marks a transient copy
and the filesystem does not fault, cleanup removes the derived temp path. -/
lemma cleanupTempFile_removes (cwd : String) (taskId : Nat) (s : Store) (t : Task)
    (hfind : findTask s taskId = some t)
    (htemp : strHasSub t.originalPath "temp/" = true)
    (hfile : s.files.contains (pathJoin cwd t.originalPath) = true) :
    pathJoin cwd t.originalPath ∉ (cleanupTempFile cwd false taskId s).files := by
  unfold cleanupTempFile
  rw [hfind]
  simp only
  rw [if_pos htemp, if_neg (by decide : ¬ (false = true)), if_pos hfile]
  intro hmem
  rw [List.mem_filter] at hmem
  exact absurd hmem.2 (by simp)

/-- Helper for C8: the failure transition removes the transient file. -/
lemma handleWorkerError_removes (cwd : String) (now taskId : Nat) (e : String)
    (s : Store) (t : Task)
    (hfind : findTask s taskId = some t)
    (htemp : strHasSub t.originalPath "temp/" = true)
    (hfile : s.files.contains (pathJoin cwd t.originalPath) = true) :
    pathJoin cwd t.originalPath ∉ (handleWorkerError cwd false now taskId e s).files := by
  unfold handleWorkerError
  have hfind2 : findTask (updateTask s taskId (failureUpdate now e)) taskId
      = some (failureUpdate now e t) := by
    rw [findTask_updateTask s taskId (failureUpdate now e) (fun u => rfl), hfind]
    rfl
  exact cleanupTempFile_removes cwd taskId _ (failureUpdate now e t) hfind2 htemp hfile

/-- Helper for C8: the success transition removes the transient file when
the variant insert went through. -/
lemma handleWorkerSuccess_removes (cwd : String) (now taskId : Nat)
    (P : List WorkerImage) (orig : String) (s : Store) (t : Task)
    (hins : (imageInsertMany (successDocs taskId P orig) s.images).2 = true)
    (hfind : findTask s taskId = some t)
    (htemp : strHasSub t.originalPath "temp/" = true)
    (hfile : s.files.contains (pathJoin cwd t.originalPath) = true) :
    pathJoin cwd t.originalPath ∉ (handleWorkerSuccess cwd false now taskId P orig s).files := by
  simp only [handleWorkerSuccess]
  rw [if_pos hins]
  have hfind2 : findTask (updateTask s taskId (successUpdate now P)) taskId
      = some (successUpdate now P t) := by
    rw [findTask_updateTask s taskId (successUpdate now P) (fun u => rfl), hfind]
    rfl
  exact cleanupTempFile_removes cwd taskId _ (successUpdate now P t) hfind2 htemp hfile

/-- C8 counterexample: on the success path, `insertMany` runs before the
cleanup inside the same try block, so a unique-path collision makes it throw
past the cleanup line — the task whose `originalPath` marks a transient
upload copy is transitioned to `completed`, yet its transient file is NOT
deleted.  Deletion is therefore not guaranteed "regardless of whether the
task completed or failed". -/
theorem cleanup_skipped_on_insert_collision_counterexample :
    strHasSub tempTask.originalPath "temp/" = true ∧
    storeTempDup.files.contains (pathJoin "/app" tempTask.originalPath) = true ∧
    (imageInsertMany (successDocs 0 payloadDup "uploads/temp/x.jpg")
      storeTempDup.images).2 = false ∧
    (findTask (handleWorkerSuccess "/app" false 5 0 payloadDup "uploads/temp/x.jpg"
        storeTempDup) 0).map Task.status = some TaskStatus.completed ∧
    (handleWorkerSuccess "/app" false 5 0 payloadDup "uploads/temp/x.jpg"
        storeTempDup).files.contains (pathJoin "/app" tempTask.originalPath) = true := by
  refine ⟨by decide, by decide, by decide, by decide, by decide⟩

/-- C8 amended: for a task whose stored `originalPath` marks a transient
upload copy (it contains "temp/"), the transient file is removed after the
failure transition, and after the success transition provided the ordered
variant insert went through — when that insert throws on the unique path
index, cleanup is skipped and the file survives a completed transition; and
cleanup is best-effort — whatever happens (including an injected filesystem
fault), it never touches the task or image collections, so the task's
status, variants and error are exactly what the transition wrote. -/
theorem cleanup_transient_best_effort
    (cwd : String) (now taskId : Nat) (errMsg orig : String)
    (P : List WorkerImage) (s : Store) (t : Task)
    (hfind : findTask s taskId = some t)
    (htemp : strHasSub t.originalPath "temp/" = true)
    (hfile : s.files.contains (pathJoin cwd t.originalPath) = true)
    (hins : (imageInsertMany (successDocs taskId P orig) s.images).2 = true) :
    (∀ c f i u, (cleanupTempFile c f i u).tasks = u.tasks ∧
        (cleanupTempFile c f i u).images = u.images) ∧
    pathJoin cwd t.originalPath ∉ (handleWorkerError cwd false now taskId errMsg s).files ∧
    pathJoin cwd t.originalPath ∉ (handleWorkerSuccess cwd false now taskId P orig s).files :=
  ⟨fun c f i u => ⟨cleanupTempFile_tasks c f i u, cleanupTempFile_images c f i u⟩,
   handleWorkerError_removes cwd now taskId errMsg s t hfind htemp hfile,
   handleWorkerSuccess_removes cwd now taskId P orig s t hins hfind htemp hfile⟩

/-- Witness for `cleanup_transient_best_effort` on a transient upload task
with its file present. -/
theorem cleanup_transient_best_effort_witness :
    findTask storeTemp 0 = some tempTask ∧
    strHasSub tempTask.originalPath "temp/" = true ∧
    storeTemp.files.contains (pathJoin "/app" tempTask.originalPath) = true ∧
    (imageInsertMany (successDocs 0 payload2 "uploads/temp/x.jpg") storeTemp.images).2 = true ∧
    ((∀ c f i u, (cleanupTempFile c f i u).tasks = u.tasks ∧
        (cleanupTempFile c f i u).images = u.images) ∧
     pathJoin "/app" tempTask.originalPath
       ∉ (handleWorkerError "/app" false 5 0 "boom" storeTemp).files ∧
     pathJoin "/app" tempTask.originalPath
       ∉ (handleWorkerSuccess "/app" false 5 0 payload2 "uploads/temp/x.jpg" storeTemp).files) :=
  ⟨by decide, by decide, by decide, by decide,
   cleanup_transient_best_effort "/app" 5 0 "boom" "uploads/temp/x.jpg" payload2
     storeTemp tempTask (by decide) (by decide) (by decide) (by decide)⟩

/-- Helper: cleanup does not change which task an id resolves to. -/
lemma findTask_cleanupTempFile (c : String) (f : Bool) (i : Nat) (u : Store) (tid : Nat) :
    findTask (cleanupTempFile c f i u) tid = findTask u tid := by
  unfold findTask
  rw [cleanupTempFile_tasks]

/-- Helper: resolving the updated id after `handleWorkerError`. -/
lemma findTask_handleWorkerError (cwd : String) (fsFail : Bool) (now taskId : Nat)
    (e : String) (s : Store) :
    findTask (handleWorkerError cwd fsFail now taskId e s) taskId
      = (findTask s taskId).map (failureUpdate now e) := by
  unfold handleWorkerError
  rw [findTask_cleanupTempFile]
  exact findTask_updateTask s taskId (failureUpdate now e) (fun u => rfl)

/-- Helper: resolving the updated id after `handleWorkerSuccess`. -/
lemma findTask_handleWorkerSuccess (cwd : String) (fsFail : Bool) (now taskId : Nat)
    (P : List WorkerImage) (orig : String) (s : Store) :
    findTask (handleWorkerSuccess cwd fsFail now taskId P orig s) taskId
      = (findTask s taskId).map (successUpdate now P) := by
  unfold findTask
  rw [handleWorkerSuccess_tasks]
  exact find_update s.tasks taskId (successUpdate now P) (fun u => rfl)

/-- C3 counterexample: a dispatched worker that ends with a non-zero exit
code without having sent a terminal message leaves the store untouched —
the exit handler only logs, no failure message is synthesized, and the task
stays `pending` after its worker was launched and ended. -/
theorem worker_nonzero_exit_counterexample :
    applyWorkerEvent "/app" false 9 0 "/input/sample1.jpg" (WorkerEvent.exitEvent 1)
      { store0 with tasks := [pendingTask0] }
      = { store0 with tasks := [pendingTask0] } ∧
    (findTask { store0 with tasks := [pendingTask0] } 0).map Task.status
      = some TaskStatus.pending :=
  ⟨rfl, by decide⟩

/-- C3 amended: of the three failure-equivalent signals the spec lists, two
do transition the task to `failed` — the thread `error` event (unexpected
crash) and a posted `failed` message, including the one the worker itself
synthesizes from an uncaught fault — but the third, a non-zero/abnormal exit
code without a terminal message, is only logged: the store is unchanged and
the task can remain `pending` forever. -/
theorem dispatcher_failure_signals
    (cwd : String) (fsFail : Bool) (now taskId : Nat) (orig e : String)
    (code : Nat) (s : Store) (t : Task)
    (hfind : findTask s taskId = some t) :
    (findTask (applyWorkerEvent cwd fsFail now taskId orig
        (WorkerEvent.message (WorkerMsg.failed e)) s) taskId).map Task.status
      = some TaskStatus.failed ∧
    (findTask (applyWorkerEvent cwd fsFail now taskId orig
        (WorkerEvent.errorEvent e) s) taskId).map Task.status
      = some TaskStatus.failed ∧
    (findTask (applyWorkerEvent cwd fsFail now taskId orig
        (WorkerEvent.message (workerFaultMsg e)) s) taskId).map Task.status
      = some TaskStatus.failed ∧
    applyWorkerEvent cwd fsFail now taskId orig (WorkerEvent.exitEvent code) s = s := by
  refine ⟨?_, ?_, ?_, rfl⟩
  · rw [show applyWorkerEvent cwd fsFail now taskId orig
        (WorkerEvent.message (WorkerMsg.failed e)) s
      = handleWorkerError cwd fsFail now taskId e s from rfl]
    rw [findTask_handleWorkerError, hfind]
    rfl
  · rw [show applyWorkerEvent cwd fsFail now taskId orig (WorkerEvent.errorEvent e) s
      = handleWorkerError cwd fsFail now taskId e s from rfl]
    rw [findTask_handleWorkerError, hfind]
    rfl
  · rw [show applyWorkerEvent cwd fsFail now taskId orig
        (WorkerEvent.message (workerFaultMsg e)) s
      = handleWorkerError cwd fsFail now taskId ("Uncaught exception: " ++ e) s from rfl]
    rw [findTask_handleWorkerError, hfind]
    rfl

/-- Witness for `dispatcher_failure_signals` on a pending single-task
store. -/
theorem dispatcher_failure_signals_witness :
    findTask { store0 with tasks := [pendingTask0] } 0 = some pendingTask0 ∧
    ((findTask (applyWorkerEvent "/app" false 9 0 "/input/sample1.jpg"
        (WorkerEvent.message (WorkerMsg.failed "boom"))
        { store0 with tasks := [pendingTask0] }) 0).map Task.status
      = some TaskStatus.failed ∧
     (findTask (applyWorkerEvent "/app" false 9 0 "/input/sample1.jpg"
        (WorkerEvent.errorEvent "boom")
        { store0 with tasks := [pendingTask0] }) 0).map Task.status
      = some TaskStatus.failed ∧
     (findTask (applyWorkerEvent "/app" false 9 0 "/input/sample1.jpg"
        (WorkerEvent.message (workerFaultMsg "boom"))
        { store0 with tasks := [pendingTask0] }) 0).map Task.status
      = some TaskStatus.failed ∧
     applyWorkerEvent "/app" false 9 0 "/input/sample1.jpg" (WorkerEvent.exitEvent 1)
        { store0 with tasks := [pendingTask0] }
      = { store0 with tasks := [pendingTask0] }) :=
  ⟨by decide,
   dispatcher_failure_signals "/app" false 9 0 "/input/sample1.jpg" "boom" 1
     { store0 with tasks := [pendingTask0] } pendingTask0 (by decide)⟩

/-- Helper for C1: the image collection after `handleWorkerSuccess` is
whatever the ordered insert produced, whether or not it threw. -/
lemma handleWorkerSuccess_images (cwd : String) (fsFail : Bool) (now taskId : Nat)
    (P : List WorkerImage) (orig : String) (s : Store) :
    (handleWorkerSuccess cwd fsFail now taskId P orig s).images
      = (imageInsertMany (successDocs taskId P orig) s.images).1 := by
  simp only [handleWorkerSuccess]
  split
  · exact cleanupTempFile_images _ _ _ _
  · rfl

/-- Helper for C1: the content fields of the variants written by a success
application do not depend on the application instant. -/
lemma successUpdate_content (now : Nat) (P : List WorkerImage) (t : Task) :
    (successUpdate now P t).images.map (fun v => (v.resolution, v.path, v.md5))
      = P.map (fun img => (img.resolution, img.path, img.md5)) := by
  simp [successUpdate, List.map_map]

/-- C1 counterexample: applying the same success message twice is NOT a
no-op — after the second application the task's `updatedAt` is the second
instant (2), no longer the value after the first application (1). -/
theorem terminal_reapply_counterexample :
    ((findTask (handleWorkerSuccess "/app" false 2 0 payload2 "/input/sample1.jpg"
        (handleWorkerSuccess "/app" false 1 0 payload2 "/input/sample1.jpg"
          { store0 with tasks := [pendingTask0] })) 0).map Task.updatedAt = some 2) ∧
    ((findTask (handleWorkerSuccess "/app" false 1 0 payload2 "/input/sample1.jpg"
        { store0 with tasks := [pendingTask0] }) 0).map Task.updatedAt = some 1) := by
  decide

/-- C1 amended: there is no pending-status gate — the handlers re-apply the
update unconditionally.  A second application of the same terminal message
leaves the status, the variants' content fields and (for failure) the error
unchanged, and adds no duplicate variant records — though only because the
ordered insert aborts on the image collection's unique path index, not
because of any status precondition — but it refreshes the task's
`updatedAt` to the second instant, so it is not a no-op. -/
theorem terminal_reapply_semantics
    (cwd : String) (fsFail : Bool) (now1 now2 taskId : Nat)
    (P : List WorkerImage) (orig e : String) (s : Store) (t : Task)
    (hfind : findTask s taskId = some t)
    (hins : (imageInsertMany (successDocs taskId P orig) s.images).2 = true) :
    ((findTask (handleWorkerSuccess cwd fsFail now2 taskId P orig
        (handleWorkerSuccess cwd fsFail now1 taskId P orig s)) taskId).map Task.status
      = some TaskStatus.completed ∧
     (findTask (handleWorkerSuccess cwd fsFail now1 taskId P orig s) taskId).map Task.status
      = some TaskStatus.completed ∧
     (findTask (handleWorkerSuccess cwd fsFail now2 taskId P orig
        (handleWorkerSuccess cwd fsFail now1 taskId P orig s)) taskId).map
          (fun u => u.images.map (fun v => (v.resolution, v.path, v.md5)))
      = (findTask (handleWorkerSuccess cwd fsFail now1 taskId P orig s) taskId).map
          (fun u => u.images.map (fun v => (v.resolution, v.path, v.md5))) ∧
     (handleWorkerSuccess cwd fsFail now2 taskId P orig
        (handleWorkerSuccess cwd fsFail now1 taskId P orig s)).images
      = (handleWorkerSuccess cwd fsFail now1 taskId P orig s).images ∧
     (findTask (handleWorkerSuccess cwd fsFail now2 taskId P orig
        (handleWorkerSuccess cwd fsFail now1 taskId P orig s)) taskId).map Task.updatedAt
      = some now2) ∧
    ((findTask (handleWorkerError cwd fsFail now2 taskId e
        (handleWorkerError cwd fsFail now1 taskId e s)) taskId).map Task.status
      = some TaskStatus.failed ∧
     (findTask (handleWorkerError cwd fsFail now2 taskId e
        (handleWorkerError cwd fsFail now1 taskId e s)) taskId).map Task.error
      = (findTask (handleWorkerError cwd fsFail now1 taskId e s) taskId).map Task.error ∧
     (handleWorkerError cwd fsFail now2 taskId e
        (handleWorkerError cwd fsFail now1 taskId e s)).images
      = (handleWorkerError cwd fsFail now1 taskId e s).images ∧
     (findTask (handleWorkerError cwd fsFail now2 taskId e
        (handleWorkerError cwd fsFail now1 taskId e s)) taskId).map Task.updatedAt
      = some now2) := by
  have hs1find : findTask (handleWorkerSuccess cwd fsFail now1 taskId P orig s) taskId
      = some (successUpdate now1 P t) := by
    rw [findTask_handleWorkerSuccess, hfind]
    rfl
  have hs2find : findTask (handleWorkerSuccess cwd fsFail now2 taskId P orig
      (handleWorkerSuccess cwd fsFail now1 taskId P orig s)) taskId
      = some (successUpdate now2 P (successUpdate now1 P t)) := by
    rw [findTask_handleWorkerSuccess, hs1find]
    rfl
  have hs1img : (handleWorkerSuccess cwd fsFail now1 taskId P orig s).images
      = s.images ++ successDocs taskId P orig :=
    handleWorkerSuccess_images_ok cwd fsFail now1 taskId P orig s hins
  have hs2img : (handleWorkerSuccess cwd fsFail now2 taskId P orig
      (handleWorkerSuccess cwd fsFail now1 taskId P orig s)).images
      = (handleWorkerSuccess cwd fsFail now1 taskId P orig s).images := by
    rw [handleWorkerSuccess_images]
    cases P with
    | nil => rw [hs1img]; rfl
    | cons w ws =>
      have hany : ((handleWorkerSuccess cwd fsFail now1 taskId (w :: ws) orig s).images.any
          (fun rcd => rcd.path = w.path)) = true := by
        rw [hs1img]
        simp [successDocs, List.any_append]
      rw [show successDocs taskId (w :: ws) orig
          = { path := w.path
              resolution := w.resolution
              md5 := w.md5
              originalPath := jsOrElse w.originalName orig
              taskId := taskId } :: successDocs taskId ws orig from rfl]
      rw [imageInsertMany_head_dup _ _ _ hany]
  have he1find : findTask (handleWorkerError cwd fsFail now1 taskId e s) taskId
      = some (failureUpdate now1 e t) := by
    rw [findTask_handleWorkerError, hfind]
    rfl
  have he2find : findTask (handleWorkerError cwd fsFail now2 taskId e
      (handleWorkerError cwd fsFail now1 taskId e s)) taskId
      = some (failureUpdate now2 e (failureUpdate now1 e t)) := by
    rw [findTask_handleWorkerError, he1find]
    rfl
  refine ⟨⟨?_, ?_, ?_, hs2img, ?_⟩, ⟨?_, ?_, ?_, ?_⟩⟩
  · rw [hs2find]
    rfl
  · rw [hs1find]
    rfl
  · rw [hs1find, hs2find]
    show some ((successUpdate now2 P (successUpdate now1 P t)).images.map
        (fun v => (v.resolution, v.path, v.md5)))
      = some ((successUpdate now1 P t).images.map (fun v => (v.resolution, v.path, v.md5)))
    rw [successUpdate_content, successUpdate_content]
  · rw [hs2find]
    rfl
  · rw [he2find]
    rfl
  · rw [he1find, he2find]
    rfl
  · unfold handleWorkerError
    rw [cleanupTempFile_images]
    rfl
  · rw [he2find]
    rfl

/-- Witness for `terminal_reapply_semantics` on a pending single-task
store and the two-variant payload. -/
theorem terminal_reapply_semantics_witness :
    findTask { store0 with tasks := [pendingTask0] } 0 = some pendingTask0 ∧
    (imageInsertMany (successDocs 0 payload2 "/input/sample1.jpg")
      ({ store0 with tasks := [pendingTask0] } : Store).images).2 = true ∧
    (((findTask (handleWorkerSuccess "/app" false 2 0 payload2 "/input/sample1.jpg"
        (handleWorkerSuccess "/app" false 1 0 payload2 "/input/sample1.jpg"
          { store0 with tasks := [pendingTask0] })) 0).map Task.status
      = some TaskStatus.completed ∧
     (findTask (handleWorkerSuccess "/app" false 1 0 payload2 "/input/sample1.jpg"
        { store0 with tasks := [pendingTask0] }) 0).map Task.status
      = some TaskStatus.completed ∧
     (findTask (handleWorkerSuccess "/app" false 2 0 payload2 "/input/sample1.jpg"
        (handleWorkerSuccess "/app" false 1 0 payload2 "/input/sample1.jpg"
          { store0 with tasks := [pendingTask0] })) 0).map
          (fun u => u.images.map (fun v => (v.resolution, v.path, v.md5)))
      = (findTask (handleWorkerSuccess "/app" false 1 0 payload2 "/input/sample1.jpg"
          { store0 with tasks := [pendingTask0] }) 0).map
          (fun u => u.images.map (fun v => (v.resolution, v.path, v.md5))) ∧
     (handleWorkerSuccess "/app" false 2 0 payload2 "/input/sample1.jpg"
        (handleWorkerSuccess "/app" false 1 0 payload2 "/input/sample1.jpg"
          { store0 with tasks := [pendingTask0] })).images
      = (handleWorkerSuccess "/app" false 1 0 payload2 "/input/sample1.jpg"
          { store0 with tasks := [pendingTask0] }).images ∧
     (findTask (handleWorkerSuccess "/app" false 2 0 payload2 "/input/sample1.jpg"
        (handleWorkerSuccess "/app" false 1 0 payload2 "/input/sample1.jpg"
          { store0 with tasks := [pendingTask0] })) 0).map Task.updatedAt
      = some 2) ∧
    ((findTask (handleWorkerError "/app" false 2 0 "boom"
        (handleWorkerError "/app" false 1 0 "boom"
          { store0 with tasks := [pendingTask0] })) 0).map Task.status
      = some TaskStatus.failed ∧
     (findTask (handleWorkerError "/app" false 2 0 "boom"
        (handleWorkerError "/app" false 1 0 "boom"
          { store0 with tasks := [pendingTask0] })) 0).map Task.error
      = (findTask (handleWorkerError "/app" false 1 0 "boom"
          { store0 with tasks := [pendingTask0] }) 0).map Task.error ∧
     (handleWorkerError "/app" false 2 0 "boom"
        (handleWorkerError "/app" false 1 0 "boom"
          { store0 with tasks := [pendingTask0] })).images
      = (handleWorkerError "/app" false 1 0 "boom"
          { store0 with tasks := [pendingTask0] }).images ∧
     (findTask (handleWorkerError "/app" false 2 0 "boom"
        (handleWorkerError "/app" false 1 0 "boom"
          { store0 with tasks := [pendingTask0] })) 0).map Task.updatedAt
      = some 2)) :=
  ⟨by decide, by decide,
   terminal_reapply_semantics "/app" false 1 2 0 payload2 "/input/sample1.jpg" "boom"
     { store0 with tasks := [pendingTask0] } pendingTask0 (by decide) (by decide)⟩

/-- C2 counterexample: re-submitting the same canonical reference while the
earlier task is still `pending` does NOT fail with DuplicateImage — the
guard consults the image-variant collection, which holds nothing until a
success records variants, so the second `createTask` goes through. -/
theorem duplicate_pending_counterexample :
    (findTask { store0 with tasks := [pendingTask0] } 0).map Task.status
      = some TaskStatus.pending ∧
    (findTask { store0 with tasks := [pendingTask0] } 0).map Task.originalPath
      = some "/input/sample1.jpg" ∧
    canonicalRef reqJson = "/input/sample1.jpg" ∧
    (createTask probe1 0 7 reqJson { store0 with tasks := [pendingTask0] }).1
      ≠ Except.error TaskError.duplicateImage := by
  refine ⟨by decide, by decide, by decide, ?_⟩
  intro hc
  exact absurd hc (by decide)

/-- C2 amended: the duplicate gate fires exactly when some recorded variant
record's origin reference equals, as a string, the canonical reference —
which is the case after the earlier task completed (its variants were
recorded), and not while it is pending or after it failed, since the
failure path records no variants.  The lookup is against the image
collection, never the Task collection. -/
theorem duplicate_guard_semantics
    (probe : String → Option (Nat × Nat)) (r : ℚ) (now now0 : Nat)
    (req : CreateTaskRequest) (cwd : String) (fsFail : Bool) (tid : Nat)
    (P : List WorkerImage) (w : WorkerImage) (ws : List WorkerImage) (e : String) (s : Store)
    (hval : validateImage probe req.imagePath = true)
    (hP : P = w :: ws) (hname : w.originalName = none)
    (hins : (imageInsertMany (successDocs tid P (canonicalRef req)) s.images).2 = true) :
    ((createTask probe r now req s).1 = Except.error TaskError.duplicateImage ↔
      s.images.any (fun img => img.originalPath = canonicalRef req) = true) ∧
    (handleWorkerError cwd fsFail now0 tid e s).images = s.images ∧
    (createTask probe r now req
        (handleWorkerSuccess cwd fsFail now0 tid P (canonicalRef req) s)).1
      = Except.error TaskError.duplicateImage := by
  have hnotfalse : ¬ validateImage probe req.imagePath = false := by
    rw [hval]
    decide
  refine ⟨?_, ?_, ?_⟩
  · simp only [createTask]
    rw [if_neg hnotfalse]
    by_cases ha : (s.images.any (fun img => img.originalPath = canonicalRef req)) = true
    · rw [if_pos ha]
      simp [ha]
    · rw [if_neg ha]
      simp only [Bool.not_eq_true] at ha
      simp [ha]
  · unfold handleWorkerError
    rw [cleanupTempFile_images]
    rfl
  · have hany : ((handleWorkerSuccess cwd fsFail now0 tid P (canonicalRef req) s).images.any
        (fun img => img.originalPath = canonicalRef req)) = true := by
      rw [handleWorkerSuccess_images_ok cwd fsFail now0 tid P (canonicalRef req) s hins]
      subst hP
      simp [successDocs, List.any_append, hname, jsOrElse]
    simp only [createTask]
    rw [if_neg hnotfalse, if_pos hany]

/-- Witness for `duplicate_guard_semantics`: a valid probe, the two-variant
payload split into head and tail, and the empty store. -/
theorem duplicate_guard_semantics_witness :
    validateImage probe1 reqJson.imagePath = true ∧
    payload2 = { resolution := "1024"
                 path := "/output/sample1/1024/aaa.jpg"
                 md5 := "aaa"
                 originalName := none } ::
               [{ resolution := "800"
                  path := "/output/sample1/800/bbb.jpg"
                  md5 := "bbb"
                  originalName := none }] ∧
    (WorkerImage.originalName { resolution := "1024"
                                path := "/output/sample1/1024/aaa.jpg"
                                md5 := "aaa"
                                originalName := none }) = none ∧
    (imageInsertMany (successDocs 0 payload2 (canonicalRef reqJson)) store0.images).2 = true ∧
    (((createTask probe1 0 7 reqJson store0).1 = Except.error TaskError.duplicateImage ↔
      store0.images.any (fun img => img.originalPath = canonicalRef reqJson) = true) ∧
     (handleWorkerError "/app" false 3 0 "boom" store0).images = store0.images ∧
     (createTask probe1 0 7 reqJson
        (handleWorkerSuccess "/app" false 3 0 payload2 (canonicalRef reqJson) store0)).1
      = Except.error TaskError.duplicateImage) :=
  ⟨by decide, by decide, by decide, by decide,
   duplicate_guard_semantics probe1 0 7 3 reqJson "/app" false 0 payload2
     { resolution := "1024"
       path := "/output/sample1/1024/aaa.jpg"
       md5 := "aaa"
       originalName := none }
     [{ resolution := "800"
        path := "/output/sample1/800/bbb.jpg"
        md5 := "bbb"
        originalName := none }]
     "boom" store0 (by decide) (by decide) (by decide) (by decide)⟩

/-- C4 counterexample: the invariant holds before, but applying a failure
message to a completed task yields a `failed` task that keeps its full
variants list — `handleWorkerError` never clears `images`, so failure
application does not preserve the invariant. -/
theorem invariant_not_preserved_counterexample :
    storeInv 2 { store0 with tasks := [completedTask2] } ∧
    ¬ storeInv 2 (handleWorkerError "/app" false 5 0 "boom"
        { store0 with tasks := [completedTask2] }) ∧
    (findTask (handleWorkerError "/app" false 5 0 "boom"
        { store0 with tasks := [completedTask2] }) 0).map Task.status
      = some TaskStatus.failed ∧
    (findTask (handleWorkerError "/app" false 5 0 "boom"
        { store0 with tasks := [completedTask2] }) 0).map (fun t => t.images.length)
      = some 2 := by
  refine ⟨by decide, by decide, by decide, by decide⟩

/-- C4 amended: with a positive resolution count, the invariant — variants
full exactly on `completed`, empty on `pending` and `failed` — holds after
creation, is preserved by a success application carrying one variant per
configured resolution, and is preserved by a failure application provided
the targeted task is not currently completed; it is violated when failure
is applied to a completed task, since `handleWorkerError` does not clear
`images`. -/
theorem variants_status_invariant_preservation
    (R : Nat) (probe : String → Option (Nat × Nat)) (r : ℚ) (now : Nat)
    (req : CreateTaskRequest) (cwd : String) (fsFail : Bool) (tid : Nat)
    (P : List WorkerImage) (orig e : String) (s : Store)
    (hR : 0 < R) (hs : storeInv R s) (hP : P.length = R)
    (hnc : ∀ t ∈ s.tasks, t.id = tid → t.status ≠ TaskStatus.completed) :
    storeInv R (createTask probe r now req s).2 ∧
    storeInv R (handleWorkerSuccess cwd fsFail now tid P orig s) ∧
    storeInv R (handleWorkerError cwd fsFail now tid e s) := by
  refine ⟨?_, ?_, ?_⟩
  · simp only [createTask]
    by_cases hv : validateImage probe req.imagePath = false
    · rw [if_pos hv]
      exact hs
    · rw [if_neg hv]
      by_cases ha : (s.images.any (fun img => img.originalPath = canonicalRef req)) = true
      · rw [if_pos ha]
        exact hs
      · rw [if_neg ha]
        intro t ht
        rcases List.mem_append.mp ht with hmem | hmem
        · exact hs t hmem
        · rcases List.mem_singleton.mp hmem with rfl
          constructor
          · constructor
            · intro hlen
              exact absurd hlen.symm (by simpa using Nat.pos_iff_ne_zero.mp hR)
            · intro hst
              exact TaskStatus.noConfusion hst
          · intro _
            rfl
  · unfold storeInv
    rw [handleWorkerSuccess_tasks]
    intro t ht
    rcases List.mem_map.mp ht with ⟨u, hu, rfl⟩
    by_cases hid : (u.id == tid) = true
    · rw [if_pos hid]
      constructor
      · constructor
        · intro _
          rfl
        · intro _
          show (P.map _).length = R
          rw [List.length_map]
          exact hP
      · intro hst
        rcases hst with hst | hst <;> exact TaskStatus.noConfusion hst
    · rw [if_neg hid]
      exact hs u hu
  · unfold storeInv
    rw [handleWorkerError_tasks]
    intro t ht
    rcases List.mem_map.mp ht with ⟨u, hu, rfl⟩
    by_cases hid : (u.id == tid) = true
    · rw [if_pos hid]
      have hustat : u.status ≠ TaskStatus.completed :=
        hnc u hu (by simpa using hid)
      have huimg : u.images = [] := by
        apply (hs u hu).2
        cases hst : u.status with
        | pending => exact Or.inl rfl
        | completed => exact absurd hst hustat
        | failed => exact Or.inr rfl
      constructor
      · constructor
        · intro hlen
          rw [show (failureUpdate now e u).images = u.images from rfl, huimg] at hlen
          exact absurd hlen.symm (by simpa using Nat.pos_iff_ne_zero.mp hR)
        · intro hst
          exact TaskStatus.noConfusion hst
      · intro _
        show u.images = []
        exact huimg
    · rw [if_neg hid]
      exact hs u hu

/-- Witness for `variants_status_invariant_preservation`: two configured
resolutions, the two-variant payload and a pending single-task store. -/
theorem variants_status_invariant_preservation_witness :
    0 < 2 ∧ storeInv 2 { store0 with tasks := [pendingTask0] } ∧
    payload2.length = 2 ∧
    (∀ t ∈ ({ store0 with tasks := [pendingTask0] } : Store).tasks,
      t.id = 0 → t.status ≠ TaskStatus.completed) ∧
    (storeInv 2 (createTask probe1 0 7 reqJson { store0 with tasks := [pendingTask0] }).2 ∧
     storeInv 2 (handleWorkerSuccess "/app" false 7 0 payload2 "/input/sample1.jpg"
        { store0 with tasks := [pendingTask0] }) ∧
     storeInv 2 (handleWorkerError "/app" false 7 0 "boom"
        { store0 with tasks := [pendingTask0] })) :=
  ⟨by decide, by decide, by decide, by decide,
   variants_status_invariant_preservation 2 probe1 0 7 reqJson "/app" false 0 payload2
     "/input/sample1.jpg" "boom" { store0 with tasks := [pendingTask0] }
     (by decide) (by decide) (by decide) (by decide)⟩

end PixelEngine
